import Mathlib

/-!
Shallow embedding of the fraud-detection evaluation pipeline of
`src/Fraud Lens/FraudLens.ipynb` (Loader → Cleaner → Feature Transformer →
Balancer → Splitter → Model Bank → Evaluator), together with theorems
settling the specification claims about it.

Machine floats of the notebook are modelled by exact rationals; the opaque
library internals (the fitted PCA projection, SMOTE's random interpolation,
the shuffling permutation of `train_test_split`) are parameters of the
embedding, constrained only where the library documents behaviour the
notebook relies on.
-/

/-- A transaction record: the `Time` and `Amount` columns (the two columns the
Feature Transformer rewrites), the anonymized `V1..V28` principal components,
and the binary `Class` label (`true` = fraud). -/
structure Row where
  time : ℚ
  amount : ℚ
  vs : List ℚ
  cls : Bool
deriving DecidableEq, Repr

instance : Inhabited Row := ⟨⟨0, 0, [], false⟩⟩

/-- A Dataset is an ordered collection of transaction records. -/
abbrev Dataset : Type := List Row

/-- The feature part of a row, i.e. the row with the `Class` column dropped
(`credit_df_copy.drop("Class", axis=1)` keeps `Time`, `Amount`, `V1..V28`). -/
def featuresOf (r : Row) : ℚ × ℚ × List ℚ := (r.time, r.amount, r.vs)

/-- `df.drop("Class", axis=1)`: the feature columns of every row. -/
def dropClassAll (D : Dataset) : List (ℚ × ℚ × List ℚ) := D.map featuresOf

/-- `df["Class"]`: the label column. -/
def classCol (D : Dataset) : List Bool := D.map (fun r => r.cls)

/-- Number of rows carrying label `b` (`value_counts` of the `Class` column). -/
def countLabel (b : Bool) (D : Dataset) : Nat := D.countP (fun r => r.cls == b)

/-- `credit_df_copy.drop_duplicates()` (notebook cell starting at line 136):
pandas keeps the first occurrence of each full row (all 31 columns, the label
included) and drops the later ones, preserving order. -/
def dropDuplicates : List Row → List Row
  | [] => []
  | r :: rs => r :: dropDuplicates (rs.filter (fun x => x ≠ r))
termination_by l => l.length
decreasing_by
  simp only [List.length_cons]
  exact Nat.lt_succ_of_le (List.length_filter_le _ _)

theorem mem_of_mem_dropDuplicates {x : Row} : ∀ {l : List Row},
    x ∈ dropDuplicates l → x ∈ l
  | [], h => by simp [dropDuplicates] at h
  | r :: rs, h => by
    rw [dropDuplicates] at h
    rcases List.mem_cons.mp h with h | h
    · exact h ▸ List.mem_cons_self _ _
    · exact List.mem_cons_of_mem _ (List.mem_of_mem_filter (mem_of_mem_dropDuplicates h))
termination_by l => l.length
decreasing_by
  simp only [List.length_cons]
  exact Nat.lt_succ_of_le (List.length_filter_le _ _)

theorem mem_dropDuplicates_of_mem {x : Row} : ∀ {l : List Row},
    x ∈ l → x ∈ dropDuplicates l
  | [], h => by simp at h
  | r :: rs, h => by
    rw [dropDuplicates]
    rcases List.mem_cons.mp h with h | h
    · exact h ▸ List.mem_cons_self _ _
    · by_cases hx : x = r
      · exact hx ▸ List.mem_cons_self _ _
      · refine List.mem_cons_of_mem _ (mem_dropDuplicates_of_mem ?_)
        exact List.mem_filter.mpr ⟨h, by simpa using hx⟩
termination_by l => l.length
decreasing_by
  simp only [List.length_cons]
  exact Nat.lt_succ_of_le (List.length_filter_le _ _)

theorem nodup_dropDuplicates : ∀ (l : List Row), (dropDuplicates l).Nodup
  | [] => by simp [dropDuplicates]
  | r :: rs => by
    rw [dropDuplicates]
    refine List.nodup_cons.mpr ⟨fun hmem => ?_, nodup_dropDuplicates _⟩
    have := List.mem_filter.mp (mem_of_mem_dropDuplicates hmem)
    simp at this
termination_by l => l.length
decreasing_by
  simp only [List.length_cons]
  exact Nat.lt_succ_of_le (List.length_filter_le _ _)

theorem length_dropDuplicates_le : ∀ (l : List Row),
    (dropDuplicates l).length ≤ l.length
  | [] => by rw [dropDuplicates]
  | r :: rs => by
    rw [dropDuplicates]
    simp only [List.length_cons, Nat.succ_le_succ_iff]
    exact le_trans (length_dropDuplicates_le _) (List.length_filter_le _ _)
termination_by l => l.length
decreasing_by
  simp only [List.length_cons]
  exact Nat.lt_succ_of_le (List.length_filter_le _ _)

theorem dropDuplicates_eq_self_of_nodup : ∀ {l : List Row},
    l.Nodup → dropDuplicates l = l
  | [], _ => by rw [dropDuplicates]
  | r :: rs, h => by
    rw [dropDuplicates]
    rcases List.nodup_cons.mp h with ⟨hr, hrs⟩
    have hfilter : rs.filter (fun x => x ≠ r) = rs := by
      apply List.filter_eq_self.mpr
      intro a ha
      simp only [ne_eq, decide_eq_true_eq]
      exact fun hEq => hr (hEq ▸ ha)
    rw [hfilter, dropDuplicates_eq_self_of_nodup hrs]
termination_by l => l.length
decreasing_by
  simp only [List.length_cons]
  exact Nat.lt_succ_self _

/-- Two identical full rows carry the same label, so no-duplicates within each
label partition implies no duplicate full rows at all. -/
theorem nodup_of_partitions_nodup {D : Dataset}
    (h : ∀ b : Bool, (D.filter (fun r => r.cls == b)).Nodup) : List.Nodup D := by
  rw [List.nodup_iff_count_le_one]
  intro r
  have hc : List.count r (D.filter (fun x => x.cls == r.cls)) = List.count r D := by
    apply List.count_filter
    simp
  calc List.count r D = List.count r (D.filter (fun x => x.cls == r.cls)) := hc.symm
    _ ≤ 1 := List.nodup_iff_count_le_one.mp (h r.cls) r

/-- Linear-interpolation quantile of an ascending list, as `np.nanpercentile`
computes it (RobustScaler's default interpolation): with `n` values, the index
is `h = q * (n - 1)` and the value `s[⌊h⌋] + (h - ⌊h⌋) * (s[⌊h⌋+1] - s[⌊h⌋])`. -/
def quantileSorted (s : List ℚ) (q : ℚ) : ℚ :=
  let h : ℚ := q * ((s.length : ℚ) - 1)
  let lo : ℕ := (⌊h⌋).toNat
  let xlo := s.getD lo 0
  xlo + (h - (⌊h⌋ : ℚ)) * (s.getD (lo + 1) xlo - xlo)

/-- Quantile of an arbitrary column: sort ascending, then interpolate. -/
def quantile (xs : List ℚ) (q : ℚ) : ℚ :=
  quantileSorted (List.insertionSort (fun a b => a ≤ b) xs) q

/-- `RobustScaler().fit` statistics for one column: center = median, scale =
interquartile range `q75 - q25`, a zero scale being replaced by 1
(sklearn's handling of zeros in scale). -/
def robustParams (xs : List ℚ) : ℚ × ℚ :=
  let c := quantile xs (1/2)
  let iqr := quantile xs (3/4) - quantile xs (1/4)
  (c, if iqr = 0 then 1 else iqr)

/-- Fit the robust scaler on the two columns independently. -/
def robustFit2 (columns : List (ℚ × ℚ)) : (ℚ × ℚ) × (ℚ × ℚ) :=
  (robustParams (columns.map Prod.fst), robustParams (columns.map Prod.snd))

/-- `transformer.transform`: `(x - center) / scale` in each column. -/
def robustTransform2 (p : (ℚ × ℚ) × (ℚ × ℚ)) (columns : List (ℚ × ℚ)) :
    List (ℚ × ℚ) :=
  columns.map (fun x => ((x.1 - p.1.1) / p.1.2, (x.2 - p.2.1) / p.2.2))

/-- The `Time`/`Amount` column pair of every row: the pandas expression
`credit_df_copy[["Time", "Amount"]]`, which returns a fresh copy of the two
columns, not a view into the frame. -/
def taCols (D : Dataset) : List (ℚ × ℚ) := D.map (fun r => (r.time, r.amount))

/-- Writing a list of `Time`/`Amount` pairs back into the two columns,
the assignment `credit_df_copy[["Time", "Amount"]] = ...`. -/
def applyTA (D : Dataset) (ta : List (ℚ × ℚ)) : Dataset :=
  List.zipWith (fun r x => { r with time := x.1, amount := x.2 }) D ta

/-- Notebook cell at line 155: `columns = credit_df_copy[["Time","Amount"]]`;
`pca.fit(columns)`; `credit_df_copy[["Time","Amount"]] = pca.transform(columns)`.
The fitted projection `pca.transform` is the parameter `pcaT`. The cell leaves
behind the updated frame together with the still-live variable `columns`,
which, being a copy, keeps the original pre-projection values. -/
def cell23 (pcaT : List (ℚ × ℚ) → List (ℚ × ℚ)) (D : Dataset) :
    Dataset × List (ℚ × ℚ) :=
  let columns := taCols D
  (applyTA D (pcaT columns), columns)

/-- Notebook cell at line 160: `transformer = RobustScaler().fit(columns)`;
`credit_df_copy[["Time","Amount"]] = transformer.transform(columns)`. Both the
fit and the transform receive the variable `columns` of the previous cell. -/
def cell24 (st : Dataset × List (ℚ × ℚ)) : Dataset :=
  let transformer := robustFit2 st.2
  applyTA st.1 (robustTransform2 transformer st.2)

/-- A concrete instance of the fitted PCA projection, valid for inputs whose
two columns are uncorrelated with the first column's variance dominating: on
such data the projection only centers each column (the principal axes are the
coordinate axes). -/
def pcaCenter (columns : List (ℚ × ℚ)) : List (ℚ × ℚ) :=
  let n : ℚ := (columns.length : ℚ)
  let m1 := (columns.map Prod.fst).sum / n
  let m2 := (columns.map Prod.snd).sum / n
  columns.map (fun x => (x.1 - m1, x.2 - m2))

/-- The errors `SMOTE.fit_resample` raises on the inputs this pipeline can
feed it: a single-class target, or a minority class smaller than the
`k_neighbors + 1` samples the nearest-neighbor interpolation requires. -/
inductive SmoteError where
  | singleClass : SmoteError
  | tooFewMinority : SmoteError
deriving DecidableEq, Repr

/-- `smote.fit_resample(X, y)` for `SMOTE(random_state=42)` (notebook cell at
line 163), the library's random nearest-neighbor interpolation abstracted as
`gen seed minorityRows i`, the `i`-th synthetic feature vector drawn from the
minority rows under the given seed. Behaviour as imblearn documents it:
raises on a single-class target; resamples nothing when the classes are
already equal; otherwise raises when the minority class has fewer than
`k_neighbors + 1 = 6` members (default `k_neighbors=5`), and else appends
`majority - minority` synthetic minority-labelled samples after the original
rows, so both classes reach the majority count. A missing `random_state`
would fall back on ambient entropy. -/
def smoteFitResample (gen : Nat → Dataset → Nat → Row) (rs : Option Nat)
    (entropy : Nat) (D : Dataset) : Except SmoteError Dataset :=
  let seed := rs.getD entropy
  let c0 := countLabel false D
  let c1 := countLabel true D
  if c0 = 0 ∨ c1 = 0 then .error .singleClass
  else if c0 = c1 then .ok D
  else if min c0 c1 < 6 then .error .tooFewMinority
  else
    let minLabel := decide (c1 < c0)
    let minRows := D.filter (fun r => r.cls == minLabel)
    let needed := max c0 c1 - min c0 c1
    .ok (D ++ (List.range needed).map
      (fun i => { gen seed minRows i with cls := minLabel }))

/-- `train_test_split(X, y, test_size=0.3, random_state=42)` (notebook cell at
line 195): sklearn draws a permutation of the row indices from the seed (the
opaque shuffle, parameter `shuffle`), takes the first `⌈test_size * n⌉`
permuted rows as the test set and the remaining rows as the train set.
Returned in source order: `(train, test)`. -/
def trainTestSplit (shuffle : Nat → Nat → List Nat) (testSize : ℚ)
    (rs : Option Nat) (entropy : Nat) (D : Dataset) : Dataset × Dataset :=
  let seed := rs.getD entropy
  let n := D.length
  let nTest := (⌈testSize * (n : ℚ)⌉).toNat
  let idx := shuffle seed n
  ((idx.drop nTest).map (fun i => D.getD i default),
   (idx.take nTest).map (fun i => D.getD i default))

/-- The notebook state the Evaluator stage sees: the cleaned-and-transformed
frame `credit_df_copy`, and the Balancer's output, which cell 25 stores in the
variables `X` and `y` only (`X, y = smote.fit_resample(X, y)`), never writing
it back into `credit_df_copy`. -/
structure NotebookState where
  credit_df_copy : Dataset
  balX : List (ℚ × ℚ × List ℚ)
  balY : List Bool
deriving DecidableEq, Repr

/-- Notebook cell at line 136: `credit_df_copy.drop_duplicates(inplace=True)`. -/
def cell20 (df : Dataset) : Dataset := dropDuplicates df

/-- The preprocessing cells in notebook order: dedupe (line 136), PCA
projection (line 155), robust scaling (line 160), SMOTE rebalancing
(line 163); stops with the SMOTE error when resampling fails. -/
def runToCell25 (pcaT : List (ℚ × ℚ) → List (ℚ × ℚ))
    (gen : Nat → Dataset → Nat → Row) (entropy : Nat) (df : Dataset) :
    Except SmoteError NotebookState :=
  let d2 := cell24 (cell23 pcaT (cell20 df))
  (smoteFitResample gen (some 42) entropy d2).map
    (fun B => ⟨d2, dropClassAll B, classCol B⟩)

/-- The dataset expression every `cross_val_score` call of the notebook's
cross-validation cell names: `credit_df_copy.drop("Class", axis=1)`. -/
def cell38CvFeatures (st : NotebookState) : List (ℚ × ℚ × List ℚ) :=
  dropClassAll st.credit_df_copy

/-- The target expression of the same calls: `credit_df_copy["Class"]`. -/
def cell38CvLabels (st : NotebookState) : List Bool :=
  classCol st.credit_df_copy

/-- The verbatim source of the notebook's cross-validation cell (line 255). -/
def cell38Source : String := "# Cross Validation Scores\nclassifier_cr = cross_val_score(classifier, credit_df_copy.drop(\"Class\", axis=1), credit_df_copy[\"Class\"], cv=5).mean()\ndt_cr = cross_val_score(dt, credit_df_copy.drop(\"Class\", axis=1), credit_df_copy[\"Class\"], cv=5).mean()\nRclf_cr = cross_val_score(Rclf, credit_df_copy.drop(\"Class\", axis=1), credit_df_copy[\"Class\"], cv=5).mean()\nlr_cr = cross_val_score(lr, cre`dit_df_copy.drop(\"Class\", axis=1), credit_df_copy[\"Class\"], cv=5).mean()\nknn_cr = cross_val_score(knn, credit_df_copy.drop(\"Class\", axis=1), credit_df_copy[\"Class\"], cv=5).mean()\nxgb_cr = cross_val_score(xgb, credit_df_copy.drop(\"Class\", axis=1), credit_df_copy[\"Class\"], cv=5).mean()"

/-- Lexical mode of the Python 3 tokenizer while scanning a cell: top-level
code, inside a single- or double-quoted string literal, or inside a comment. -/
inductive LexMode where
  | normal : LexMode
  | singleQ : LexMode
  | doubleQ : LexMode
  | comment : LexMode

/-- Scan Python source character by character: a backtick (code 96) is not a
token of Python 3, so meeting one outside string literals and comments makes
the cell fail to compile. Quote (34), apostrophe (39), hash (35) and newline
(10) switch the mode; the scanned cell uses no escapes or triple quotes. -/
def pyScan : LexMode → List Char → Bool
  | _, [] => true
  | .normal, c :: rest =>
    if c.toNat = 96 then false
    else if c.toNat = 39 then pyScan .singleQ rest
    else if c.toNat = 34 then pyScan .doubleQ rest
    else if c.toNat = 35 then pyScan .comment rest
    else pyScan .normal rest
  | .singleQ, c :: rest =>
    if c.toNat = 39 then pyScan .normal rest else pyScan .singleQ rest
  | .doubleQ, c :: rest =>
    if c.toNat = 34 then pyScan .normal rest else pyScan .doubleQ rest
  | .comment, c :: rest =>
    if c.toNat = 10 then pyScan .normal rest else pyScan .comment rest

/-- A Python cell compiles iff its source scans without a stray backtick. -/
def pySourceOk (s : String) : Bool := pyScan .normal s.data

/-- The failure executing the cross-validation cell surfaces. -/
inductive PyError where
  | syntaxError : PyError
deriving DecidableEq, Repr

/-- Executing the cross-validation cell on a notebook state: Python compiles
the whole cell first; only if that succeeds do the `cross_val_score` calls
run, on the features and labels of `credit_df_copy`. -/
def runCell38 (st : NotebookState) :
    Except PyError (List (ℚ × ℚ × List ℚ) × List Bool) :=
  if pySourceOk cell38Source then .ok (cell38CvFeatures st, cell38CvLabels st)
  else .error .syntaxError

/-- Paired true/predicted label counts over the held-out set: the number of
aligned positions of `y_true` and `y_pred` satisfying `pred`. -/
def pairCount (t p : List Bool) (pred : Bool → Bool → Bool) : ℕ :=
  (t.zip p).countP (fun x => pred x.1 x.2)

/-- `accuracy_score(y_true, y_pred)`: the fraction of positions where the two
labels agree, out of `len(y_true)`. -/
def accuracy_score (t p : List Bool) : ℚ :=
  (pairCount t p (fun a b => a == b) : ℚ) / (t.length : ℚ)

/-- sklearn's guarded division for precision/recall/F-measures: a zero
denominator yields 0 (the default zero-division behaviour, a warning rather
than a crash). -/
def prfDiv (a b : ℚ) : ℚ := if b = 0 then 0 else a / b

/-- Precision of class `c`: among positions predicted `c`, the fraction whose
true label is `c`. -/
def precisionFor (c : Bool) (t p : List Bool) : ℚ :=
  prfDiv (pairCount t p (fun a b => a == c && b == c))
    (pairCount t p (fun _ b => b == c))

/-- Recall of class `c`: among positions whose true label is `c`, the fraction
predicted `c`. -/
def recallFor (c : Bool) (t p : List Bool) : ℚ :=
  prfDiv (pairCount t p (fun a b => a == c && b == c))
    (pairCount t p (fun a _ => a == c))

/-- Per-class F1, as sklearn computes it: the harmonic mean `2PR / (P + R)` of
the class's precision and recall, 0 when both vanish. -/
def f1For (c : Bool) (t p : List Bool) : ℚ :=
  prfDiv (2 * precisionFor c t p * recallFor c t p)
    (precisionFor c t p + recallFor c t p)

/-- `precision_score(y_true, y_pred)` with the notebook's defaults
(binary average, positive label = fraud): precision of the fraud class only. -/
def precision_score (t p : List Bool) : ℚ := precisionFor true t p

/-- `recall_score(y_true, y_pred)` with the notebook's defaults. -/
def recall_score (t p : List Bool) : ℚ := recallFor true t p

/-- `f1_score(y_true, y_pred, average='weighted')`: per-class F1 averaged with
weights `support_c / n`, the class frequencies of `y_true`. -/
def f1_score_weighted (t p : List Bool) : ℚ :=
  ((t.countP (fun a => a == false) : ℚ) / (t.length : ℚ)) * f1For false t p +
  ((t.countP (fun a => a == true) : ℚ) / (t.length : ℚ)) * f1For true t p

/-- One row of the notebook's holdout comparison table (cell at line 245), in
source order: accuracy, weighted F1, precision, recall of `y_test` against the
model's predictions (the notebook additionally rounds each value to two
decimals for display). -/
def metricsRow (t p : List Bool) : ℚ × ℚ × ℚ × ℚ :=
  (accuracy_score t p, f1_score_weighted t p, precision_score t p,
   recall_score t p)

/-- The Evaluator's holdout scoring of one trained model (cells at lines
237-252): predict labels on the test features, then score the four metrics
against the test labels. -/
def evaluateModel (predict : List (ℚ × ℚ × List ℚ) → List Bool)
    (Xtest : List (ℚ × ℚ × List ℚ)) (ytest : List Bool) : ℚ × ℚ × ℚ × ℚ :=
  metricsRow ytest (predict Xtest)

/-- Confusion-matrix count: positions with true label `a` and prediction `b`. -/
def confusion (a b : Bool) (t p : List Bool) : ℕ :=
  pairCount t p (fun x y => x == a && y == b)

/-- The spec's accuracy, written through the confusion matrix:
`(TP + TN) / n`. -/
def specAccuracy (t p : List Bool) : ℚ :=
  ((confusion true true t p + confusion false false t p : ℕ) : ℚ) /
    (t.length : ℚ)

/-- The spec's positive-class precision `TP / (TP + FP)`, 0 when the model
makes no positive prediction (the division-by-zero case the spec requires to
be handled, not crash). -/
def specPrecision (t p : List Bool) : ℚ :=
  prfDiv (confusion true true t p)
    ((confusion true true t p + confusion false true t p : ℕ))

/-- The spec's positive-class recall `TP / (TP + FN)`. -/
def specRecall (t p : List Bool) : ℚ :=
  prfDiv (confusion true true t p)
    ((confusion true true t p + confusion true false t p : ℕ))

/-- Per-class F1 written directly through the confusion matrix:
`2 TP_c / (2 TP_c + FP_c + FN_c)`. -/
def specF1For (c : Bool) (t p : List Bool) : ℚ :=
  prfDiv (2 * (confusion c c t p : ℚ))
    (2 * (confusion c c t p : ℚ) + (confusion (!c) c t p : ℚ) +
      (confusion c (!c) t p : ℚ))

/-- The spec's F1 weighted by class frequency of the true labels. -/
def specWeightedF1 (t p : List Bool) : ℚ :=
  ((t.countP (fun a => a == false) : ℚ) / (t.length : ℚ)) * specF1For false t p +
  ((t.countP (fun a => a == true) : ℚ) / (t.length : ℚ)) * specF1For true t p

/-- Toy dataset of the spec's end-to-end scenario: 10 non-fraud rows and 2
fraud rows, all twelve feature vectors pairwise distinct. -/
def toy12 : Dataset :=
  (List.range 10).map (fun i => ⟨0, 0, [(i : ℚ)], false⟩) ++
  (List.range 2).map (fun i => ⟨0, 0, [((10 + i : ℕ) : ℚ)], true⟩)

/-- The scenario's toy dataset repaired to satisfy SMOTE's neighbor
requirement: 10 non-fraud rows and 6 fraud rows, features pairwise distinct. -/
def toy16 : Dataset :=
  (List.range 10).map (fun i => ⟨0, 0, [(i : ℚ)], false⟩) ++
  (List.range 6).map (fun i => ⟨0, 0, [((10 + i : ℕ) : ℚ)], true⟩)

/-- A concrete instance of SMOTE's synthetic-sample generator: every synthetic
sample is a copy of the first minority row (a degenerate interpolation with
gap 0). -/
def genHead (_seed : Nat) (minRows : Dataset) (_i : Nat) : Row :=
  minRows.headD default

/-- The Balancer's output on `toy16` under `genHead`: the sixteen original
rows followed by four synthetic fraud rows. -/
def toy16bal : Dataset :=
  toy16 ++ (List.range 4).map
    (fun _ => ({ time := 0, amount := 0, vs := [10], cls := true } : Row))

/-- The notebook state after cell 25 on `toy16`: `credit_df_copy` still holds
the 16 pre-balance rows, while `X`, `y` hold the 20 balanced ones. -/
def toy16State : NotebookState :=
  ⟨toy16, dropClassAll toy16bal, classCol toy16bal⟩

/-- A non-fraud row and a fraud row agreeing on every feature column. -/
def rowA : Row := ⟨1, 2, [3], false⟩

/-- The fraud twin of `rowA`. -/
def rowB : Row := ⟨1, 2, [3], true⟩

/-- Claim C6: the Cleaner's output has no two identical rows within either
label partition and is no longer than its input, and it performs no
cross-class deduplication: a non-fraud row and a fraud row agreeing on every
feature column are both retained. -/
theorem cleaner_dedupe_properties (D : Dataset) (r₁ r₂ : Row)
    (h₁ : r₁ ∈ D) (h₂ : r₂ ∈ D) (hfeat : featuresOf r₁ = featuresOf r₂)
    (hc₁ : r₁.cls = false) (hc₂ : r₂.cls = true) :
    ((dropDuplicates D).filter (fun r => r.cls == false)).Nodup ∧
    ((dropDuplicates D).filter (fun r => r.cls == true)).Nodup ∧
    (dropDuplicates D).length ≤ D.length ∧
    r₁ ∈ dropDuplicates D ∧ r₂ ∈ dropDuplicates D :=
  ⟨List.Nodup.filter _ (nodup_dropDuplicates D),
   List.Nodup.filter _ (nodup_dropDuplicates D),
   length_dropDuplicates_le D,
   mem_dropDuplicates_of_mem h₁, mem_dropDuplicates_of_mem h₂⟩

/-- Witness for C6 at a concrete two-row dataset whose rows agree on every
feature but differ in label. -/
theorem cleaner_dedupe_properties_witness :
    rowA ∈ ([rowA, rowB] : Dataset) ∧ rowB ∈ ([rowA, rowB] : Dataset) ∧
    featuresOf rowA = featuresOf rowB ∧ rowA.cls = false ∧ rowB.cls = true ∧
    (((dropDuplicates [rowA, rowB]).filter (fun r => r.cls == false)).Nodup ∧
     ((dropDuplicates [rowA, rowB]).filter (fun r => r.cls == true)).Nodup ∧
     (dropDuplicates [rowA, rowB]).length ≤ ([rowA, rowB] : Dataset).length ∧
     rowA ∈ dropDuplicates [rowA, rowB] ∧ rowB ∈ dropDuplicates [rowA, rowB]) :=
  ⟨by decide, by decide, by decide, by decide, by decide,
   cleaner_dedupe_properties [rowA, rowB] rowA rowB (by decide) (by decide)
     (by decide) (by decide) (by decide)⟩

/-- Claim C9: on a dataset already deduplicated within each label partition
the Cleaner is the identity, and the Cleaner is idempotent on every dataset. -/
theorem cleaner_idempotent (D : Dataset)
    (h₀ : (D.filter (fun r => r.cls == false)).Nodup)
    (h₁ : (D.filter (fun r => r.cls == true)).Nodup) :
    dropDuplicates D = D ∧
    ∀ E : Dataset, dropDuplicates (dropDuplicates E) = dropDuplicates E := by
  refine ⟨dropDuplicates_eq_self_of_nodup (nodup_of_partitions_nodup ?_), fun E =>
    dropDuplicates_eq_self_of_nodup (nodup_dropDuplicates E)⟩
  intro b
  cases b
  · exact h₀
  · exact h₁

/-- Witness for C9 at a concrete dataset with both partitions duplicate-free. -/
theorem cleaner_idempotent_witness :
    (([rowA, rowB] : Dataset).filter (fun r => r.cls == false)).Nodup ∧
    (([rowA, rowB] : Dataset).filter (fun r => r.cls == true)).Nodup ∧
    (dropDuplicates [rowA, rowB] = [rowA, rowB] ∧
     ∀ E : Dataset, dropDuplicates (dropDuplicates E) = dropDuplicates E) :=
  ⟨by decide, by decide, cleaner_idempotent [rowA, rowB] (by decide) (by decide)⟩

theorem taCols_applyTA : ∀ (D : Dataset) (ta : List (ℚ × ℚ)),
    ta.length = D.length → taCols (applyTA D ta) = ta
  | [], [], _ => rfl
  | [], _ :: _, h => by simp at h
  | _ :: _, [], h => by simp at h
  | a :: as, x :: xs, h => by
    show (x.1, x.2) :: taCols (applyTA as xs) = x :: xs
    rw [taCols_applyTA as xs (by simpa using h)]

theorem applyTA_applyTA : ∀ (D : Dataset) (ta₁ ta₂ : List (ℚ × ℚ)),
    ta₁.length = D.length → applyTA (applyTA D ta₁) ta₂ = applyTA D ta₂
  | [], _, _, _ => by simp [applyTA]
  | _ :: _, [], _, h => by simp at h
  | a :: as, x :: xs, ta₂, h => by
    cases ta₂ with
    | nil => simp [applyTA]
    | cons y ys =>
      exact congrArg (List.cons _) (applyTA_applyTA as xs ys (by simpa using h))

/-- Claim C1 (amended): after the two transformer cells run, the `Time` and
`Amount` columns hold the robust-scaled ORIGINAL values. The scaler's
statistics are computed from `columns`, the pre-projection copy, and the
scaler is also applied to that same copy, so the PCA write is immediately
overwritten and discarded: the final frame does not depend on the projection
at all. (The columns are indeed replaced twice in sequence, but the second
replacement is computed from the original values, not from the PCA output.) -/
theorem transformer_scales_original (pcaT : List (ℚ × ℚ) → List (ℚ × ℚ))
    (D : Dataset) (hlen : (pcaT (taCols D)).length = D.length) :
    taCols (cell24 (cell23 pcaT D))
      = robustTransform2 (robustFit2 (taCols D)) (taCols D) ∧
    cell24 (cell23 pcaT D) = cell24 (cell23 (fun columns => columns) D) := by
  have hD : (taCols D).length = D.length := List.length_map _ _
  have h1 : applyTA (applyTA D (pcaT (taCols D)))
      (robustTransform2 (robustFit2 (taCols D)) (taCols D))
      = applyTA D (robustTransform2 (robustFit2 (taCols D)) (taCols D)) :=
    applyTA_applyTA D _ _ hlen
  constructor
  · show taCols (applyTA (applyTA D (pcaT (taCols D)))
      (robustTransform2 (robustFit2 (taCols D)) (taCols D))) = _
    rw [h1]
    exact taCols_applyTA D _ (by simp [robustTransform2, taCols])
  · show applyTA (applyTA D (pcaT (taCols D)))
        (robustTransform2 (robustFit2 (taCols D)) (taCols D))
      = applyTA (applyTA D (taCols D))
        (robustTransform2 (robustFit2 (taCols D)) (taCols D))
    rw [h1, applyTA_applyTA D _ _ hD]

/-- A concrete three-row frame for the transformer: `Time` values 0, 10, 20
and a constant `Amount` column, so the covariance matrix is diagonal and the
fitted projection is `pcaCenter`. -/
def exD : Dataset := [⟨0, 0, [], false⟩, ⟨10, 0, [], false⟩, ⟨20, 0, [], true⟩]

/-- Claim C1 counterexample: on `exD` the final columns produced by the two
cells differ from what the claim predicts (scaling statistics fit on the
original values but applied to the PCA output): the code yields the scaled
originals `[-1, 0, 1]` in the `Time` column, the claim predicts `[-2, -1, 0]`. -/
theorem transformer_claim_cex :
    taCols (cell24 (cell23 pcaCenter exD))
      ≠ robustTransform2 (robustFit2 (taCols exD)) (pcaCenter (taCols exD)) := by
  with_unfolding_all decide

/-- Witness for the amended C1: the projection `pcaCenter` on `exD` is
length-preserving, and the conclusion holds there. -/
theorem transformer_scales_original_witness :
    (pcaCenter (taCols exD)).length = exD.length ∧
    (taCols (cell24 (cell23 pcaCenter exD))
      = robustTransform2 (robustFit2 (taCols exD)) (taCols exD) ∧
     cell24 (cell23 pcaCenter exD) = cell24 (cell23 (fun columns => columns) exD)) :=
  ⟨by with_unfolding_all rfl,
   transformer_scales_original pcaCenter exD (by with_unfolding_all rfl)⟩

/-- Claim C2 (amended): every `cross_val_score` call of the cross-validation
cell names `credit_df_copy` — the cleaned, transformed, PRE-balance frame — as
its dataset and target, not the Balancer's output, which cell 25 stored only
in the variables `X` and `y`. -/
theorem crossval_uses_prebalance (pcaT : List (ℚ × ℚ) → List (ℚ × ℚ))
    (gen : Nat → Dataset → Nat → Row) (entropy : Nat) (df : Dataset)
    (st : NotebookState) (h : runToCell25 pcaT gen entropy df = .ok st) :
    cell38CvFeatures st = dropClassAll (cell24 (cell23 pcaT (cell20 df))) ∧
    cell38CvLabels st = classCol (cell24 (cell23 pcaT (cell20 df))) := by
  simp only [runToCell25] at h
  cases hs : smoteFitResample gen (some 42) entropy
      (cell24 (cell23 pcaT (cell20 df))) with
  | error e => rw [hs] at h; simp [Except.map] at h
  | ok B =>
    rw [hs] at h
    simp only [Except.map] at h
    cases h
    exact ⟨rfl, rfl⟩

/-- Witness for the amended C2 at the concrete `toy16` pipeline run. -/
theorem crossval_uses_prebalance_witness :
    runToCell25 pcaCenter genHead 0 toy16 = .ok toy16State ∧
    (cell38CvFeatures toy16State
        = dropClassAll (cell24 (cell23 pcaCenter (cell20 toy16))) ∧
     cell38CvLabels toy16State
        = classCol (cell24 (cell23 pcaCenter (cell20 toy16)))) :=
  ⟨by with_unfolding_all rfl,
   crossval_uses_prebalance pcaCenter genHead 0 toy16 toy16State
    (by with_unfolding_all rfl)⟩

/-- Claim C2 counterexample: on the concrete `toy16` run the dataset the
cross-validation cell references has 16 rows while the Balancer's output has
20, so the cross-validation is not computed against the balanced dataset. -/
theorem crossval_balanced_claim_cex :
    (runToCell25 pcaCenter genHead 0 toy16).map
      (fun st => ((cell38CvFeatures st).length, st.balX.length)) = .ok (16, 20) := by
  with_unfolding_all rfl

set_option maxRecDepth 8192 in
/-- Claim C3: the cross-validation cell is syntactically invalid — a stray
backtick sits inside the dataset variable's name on the LogisticRegression
line — so for every notebook state, executing the cell raises SyntaxError
when Python compiles it, before any fold score is computed, and the
cross-validated score table is never produced. -/
theorem crossval_cell_syntax_error :
    pySourceOk cell38Source = false ∧
    ∀ st : NotebookState, runCell38 st = .error .syntaxError := by
  have h : pySourceOk cell38Source = false := by decide
  exact ⟨h, fun st => by simp [runCell38, h]⟩

/-- Claim C8: the notebook pins `random_state=42` in both the Balancer's
`SMOTE(random_state=42)` and the Splitter's
`train_test_split(..., random_state=42)`, so repeated runs are independent of
the ambient entropy a run would otherwise draw: both stages return identical
outputs for any two entropy values, on every input. -/
theorem fixed_seed_determinism (gen : Nat → Dataset → Nat → Row)
    (shuffle : Nat → Nat → List Nat) (e₁ e₂ : Nat) (D B : Dataset) :
    smoteFitResample gen (some 42) e₁ D = smoteFitResample gen (some 42) e₂ D ∧
    trainTestSplit shuffle (3/10) (some 42) e₁ B =
      trainTestSplit shuffle (3/10) (some 42) e₂ B :=
  ⟨rfl, rfl⟩

theorem countLabel_append (b : Bool) (D E : Dataset) :
    countLabel b (D ++ E) = countLabel b D + countLabel b E := by
  simp [countLabel, List.countP_append]

theorem countLabel_map_cls (b c : Bool) (f : Nat → Row)
    (hc : ∀ i, (f i).cls = c) (l : List Nat) :
    countLabel b (l.map f) = if c = b then l.length else 0 := by
  unfold countLabel
  rw [List.countP_map]
  by_cases h : c = b
  · subst h
    have he : ((fun r => r.cls == c) ∘ f) = fun i => true := by
      funext i
      simp [Function.comp_def, hc i]
    rw [he]
    simp
  · have he : ((fun r => r.cls == b) ∘ f) = fun i => false := by
      funext i
      simp [Function.comp_def, hc i]
      exact h
    rw [he]
    simp [h]

/-- Whenever SMOTE succeeds, both classes of the output sit at the input's
majority count, and the output extends the input by exactly the class gap. -/
theorem smoteFitResample_ok (gen : Nat → Dataset → Nat → Row) (rs : Option Nat)
    (entropy : Nat) (D B : Dataset)
    (h : smoteFitResample gen rs entropy D = .ok B) :
    countLabel false B = max (countLabel false D) (countLabel true D) ∧
    countLabel true B = max (countLabel false D) (countLabel true D) ∧
    B.length = D.length +
      (max (countLabel false D) (countLabel true D) -
        min (countLabel false D) (countLabel true D)) := by
  simp only [smoteFitResample] at h
  split at h
  · simp at h
  · split at h
    · rename_i hne heq
      injection h with hDB
      subst hDB
      refine ⟨?_, ?_, ?_⟩ <;> omega
    · split at h
      · simp at h
      · rename_i hne heq hmin
        injection h with hDB
        subst hDB
        rw [countLabel_append, countLabel_append,
          countLabel_map_cls _ (decide (countLabel true D < countLabel false D)) _
            (fun i => rfl),
          countLabel_map_cls _ (decide (countLabel true D < countLabel false D)) _
            (fun i => rfl),
          List.length_append, List.length_map, List.length_range]
        by_cases hc : countLabel true D < countLabel false D
        · rw [if_neg (by simp [hc]), if_pos (by simp [hc])]
          omega
        · rw [if_pos (by simp [hc]), if_neg (by simp [hc])]
          omega

/-- Claim C4: for every input the Balancer accepts, the output dataset has
exactly equal counts of the two classes and is at least as large as the
input. -/
theorem balancer_equalizes_counts (gen : Nat → Dataset → Nat → Row)
    (rs : Option Nat) (entropy : Nat) (D B : Dataset)
    (h : smoteFitResample gen rs entropy D = .ok B) :
    countLabel false B = countLabel true B ∧ D.length ≤ B.length := by
  obtain ⟨h₀, h₁, h₂⟩ := smoteFitResample_ok gen rs entropy D B h
  exact ⟨h₀.trans h₁.symm, by omega⟩

/-- Witness for C4 at the concrete 10/6 toy dataset. -/
theorem balancer_equalizes_counts_witness :
    smoteFitResample genHead (some 42) 0 toy16 = .ok toy16bal ∧
    (countLabel false toy16bal = countLabel true toy16bal ∧
     toy16.length ≤ toy16bal.length) :=
  ⟨by with_unfolding_all rfl,
   balancer_equalizes_counts genHead (some 42) 0 toy16 toy16bal
     (by with_unfolding_all rfl)⟩

theorem map_getD_range (D : Dataset) :
    (List.range D.length).map (fun i => D.getD i default) = D := by
  induction D with
  | nil => simp
  | cons a as ih =>
    rw [List.length_cons, List.range_succ_eq_map, List.map_cons, List.map_map]
    have he : ((fun i => (a :: as).getD i default) ∘ (fun i => i + 1))
        = fun i => as.getD i default := by
      funext i
      simp [Function.comp_def, List.getD_cons_succ]
    rw [List.getD_cons_zero, he, ih]

theorem trainTestSplit_test_eq (shuffle : Nat → Nat → List Nat) (f : ℚ)
    (rs : Option Nat) (entropy : Nat) (D : Dataset) :
    (trainTestSplit shuffle f rs entropy D).2
      = ((shuffle (rs.getD entropy) D.length).take
          ((⌈f * (D.length : ℚ)⌉).toNat)).map (fun i => D.getD i default) := rfl

theorem trainTestSplit_train_eq (shuffle : Nat → Nat → List Nat) (f : ℚ)
    (rs : Option Nat) (entropy : Nat) (D : Dataset) :
    (trainTestSplit shuffle f rs entropy D).1
      = ((shuffle (rs.getD entropy) D.length).drop
          ((⌈f * (D.length : ℚ)⌉).toNat)).map (fun i => D.getD i default) := rfl

theorem trainTestSplit_perm (shuffle : Nat → Nat → List Nat) (f : ℚ)
    (rs : Option Nat) (entropy : Nat) (D : Dataset)
    (hp : (shuffle (rs.getD entropy) D.length).Perm (List.range D.length)) :
    ((trainTestSplit shuffle f rs entropy D).2 ++
      (trainTestSplit shuffle f rs entropy D).1).Perm D := by
  rw [trainTestSplit_test_eq, trainTestSplit_train_eq, ← List.map_append,
    List.take_append_drop]
  have h2 := hp.map (fun i => D.getD i default)
  rwa [map_getD_range] at h2

theorem trainTestSplit_lengths (shuffle : Nat → Nat → List Nat) (f : ℚ)
    (rs : Option Nat) (entropy : Nat) (D : Dataset)
    (hp : (shuffle (rs.getD entropy) D.length).Perm (List.range D.length))
    (hle : (⌈f * (D.length : ℚ)⌉).toNat ≤ D.length) :
    (trainTestSplit shuffle f rs entropy D).2.length
        = (⌈f * (D.length : ℚ)⌉).toNat ∧
    (trainTestSplit shuffle f rs entropy D).1.length
        = D.length - (⌈f * (D.length : ℚ)⌉).toNat := by
  have hlen : (shuffle (rs.getD entropy) D.length).length = D.length :=
    hp.length_eq.trans (List.length_range _)
  rw [trainTestSplit_test_eq, trainTestSplit_train_eq, List.length_map,
    List.length_map, List.length_take, List.length_drop, hlen]
  omega

theorem trainTestSplit_disjoint (shuffle : Nat → Nat → List Nat) (f : ℚ)
    (rs : Option Nat) (entropy : Nat) (D : Dataset)
    (hp : (shuffle (rs.getD entropy) D.length).Perm (List.range D.length))
    (hnd : D.Nodup) :
    ∀ r, r ∈ (trainTestSplit shuffle f rs entropy D).2 →
      r ∉ (trainTestSplit shuffle f rs entropy D).1 := by
  intro r hr2 hr1
  rw [trainTestSplit_test_eq] at hr2
  rw [trainTestSplit_train_eq] at hr1
  obtain ⟨i, hi, hfi⟩ := List.mem_map.mp hr2
  obtain ⟨j, hj, hfj⟩ := List.mem_map.mp hr1
  have hidxnd : (shuffle (rs.getD entropy) D.length).Nodup :=
    hp.nodup_iff.mpr (List.nodup_range _)
  have hij : i ≠ j := by
    intro hEq
    subst hEq
    exact List.disjoint_take_drop hidxnd (le_refl _) hi hj
  have hi_lt : i < D.length := by
    have := hp.mem_iff.mp (List.mem_of_mem_take hi)
    simpa [List.mem_range] using this
  have hj_lt : j < D.length := by
    have := hp.mem_iff.mp (List.mem_of_mem_drop hj)
    simpa [List.mem_range] using this
  have hgd : D.getD i default = D.getD j default := by rw [hfi, hfj]
  have hget : D.get ⟨i, hi_lt⟩ = D.get ⟨j, hj_lt⟩ := by
    have hgi : D.getD i default = D.get ⟨i, hi_lt⟩ := by
      simp [List.getD_eq_getElem?_getD, List.getElem?_eq_getElem hi_lt,
        List.get_eq_getElem]
    have hgj : D.getD j default = D.get ⟨j, hj_lt⟩ := by
      simp [List.getD_eq_getElem?_getD, List.getElem?_eq_getElem hj_lt,
        List.get_eq_getElem]
    rw [← hgi, ← hgj, hgd]
  have hIdx := (List.Nodup.get_inj_iff hnd).mp hget
  exact hij (by simpa using congrArg Fin.val hIdx)

theorem ceil_fraction_close (f : ℚ) (n : ℕ) (hn : 0 < n) (hf0 : 0 ≤ f) :
    |(((⌈f * (n : ℚ)⌉).toNat : ℚ) / (n : ℚ)) - f| < 1 / (n : ℚ) := by
  have hnQ : (0 : ℚ) < (n : ℚ) := by exact_mod_cast hn
  have hx0 : (0 : ℚ) ≤ f * (n : ℚ) := mul_nonneg hf0 (le_of_lt hnQ)
  have hc0 : (0 : ℤ) ≤ ⌈f * (n : ℚ)⌉ := Int.ceil_nonneg hx0
  have hcast : (((⌈f * (n : ℚ)⌉).toNat : ℚ)) = ((⌈f * (n : ℚ)⌉ : ℤ) : ℚ) := by
    exact_mod_cast Int.toNat_of_nonneg hc0
  rw [hcast]
  have h1 : f * (n : ℚ) ≤ ((⌈f * (n : ℚ)⌉ : ℤ) : ℚ) := Int.le_ceil _
  have h2 : ((⌈f * (n : ℚ)⌉ : ℤ) : ℚ) < f * (n : ℚ) + 1 := Int.ceil_lt_add_one _
  have hrw : ((⌈f * (n : ℚ)⌉ : ℤ) : ℚ) / (n : ℚ) - f
      = (((⌈f * (n : ℚ)⌉ : ℤ) : ℚ) - f * (n : ℚ)) / (n : ℚ) := by
    field_simp
    ring
  rw [hrw, abs_of_nonneg (div_nonneg (by linarith) (le_of_lt hnQ))]
  exact (div_lt_div_iff_of_pos_right hnQ).mpr (by linarith)

/-- Claim C5: under any seed-derived permutation of the row indices, the
Splitter partitions the balanced dataset: test and train together are a
permutation of `D` (so no record is created or lost and, as row sets, their
union is `D`), the test part holds exactly `⌈0.3 · |D|⌉` rows — within
rounding of the 0.3 fraction — and when `D` has no duplicate rows the two
parts share no row. -/
theorem splitter_partition (shuffle : Nat → Nat → List Nat) (rs : Option Nat)
    (entropy : Nat) (D : Dataset)
    (hp : (shuffle (rs.getD entropy) D.length).Perm (List.range D.length)) :
    ((trainTestSplit shuffle (3/10) rs entropy D).2 ++
        (trainTestSplit shuffle (3/10) rs entropy D).1).Perm D ∧
    (trainTestSplit shuffle (3/10) rs entropy D).2.length
        = (⌈(3/10 : ℚ) * (D.length : ℚ)⌉).toNat ∧
    (D.Nodup → ∀ r, r ∈ (trainTestSplit shuffle (3/10) rs entropy D).2 →
        r ∉ (trainTestSplit shuffle (3/10) rs entropy D).1) ∧
    (D ≠ [] →
      |((trainTestSplit shuffle (3/10) rs entropy D).2.length : ℚ) /
          (D.length : ℚ) - 3/10| < 1 / (D.length : ℚ)) := by
  have hle : (⌈(3/10 : ℚ) * (D.length : ℚ)⌉).toNat ≤ D.length := by
    apply Int.toNat_le.mpr
    apply Int.ceil_le.mpr
    push_cast
    nlinarith [show (0 : ℚ) ≤ (D.length : ℚ) from Nat.cast_nonneg _]
  obtain ⟨hlt, _⟩ := trainTestSplit_lengths shuffle (3/10) rs entropy D hp hle
  refine ⟨trainTestSplit_perm shuffle (3/10) rs entropy D hp, hlt,
    fun hnd => trainTestSplit_disjoint shuffle (3/10) rs entropy D hp hnd, ?_⟩
  intro hne
  have hn : 0 < D.length := List.length_pos.mpr hne
  rw [hlt]
  exact ceil_fraction_close (3/10) D.length hn (by norm_num)

/-- The identity permutation as a shuffle, for the concrete witnesses. -/
def idShuffle (_seed : Nat) (n : Nat) : List Nat := List.range n

/-- Four distinct rows for the splitter witness, two per class. -/
def toy4 : Dataset :=
  [⟨1, 0, [], false⟩, ⟨2, 0, [], false⟩, ⟨3, 0, [], true⟩, ⟨4, 0, [], true⟩]

/-- Witness for C5 at the concrete `toy4` under the identity shuffle. -/
theorem splitter_partition_witness :
    (idShuffle ((some 42 : Option Nat).getD 0) toy4.length).Perm
        (List.range toy4.length) ∧
    (((trainTestSplit idShuffle (3/10) (some 42) 0 toy4).2 ++
        (trainTestSplit idShuffle (3/10) (some 42) 0 toy4).1).Perm toy4 ∧
     (trainTestSplit idShuffle (3/10) (some 42) 0 toy4).2.length
        = (⌈(3/10 : ℚ) * (toy4.length : ℚ)⌉).toNat ∧
     (toy4.Nodup → ∀ r, r ∈ (trainTestSplit idShuffle (3/10) (some 42) 0 toy4).2 →
        r ∉ (trainTestSplit idShuffle (3/10) (some 42) 0 toy4).1) ∧
     (toy4 ≠ [] →
      |((trainTestSplit idShuffle (3/10) (some 42) 0 toy4).2.length : ℚ) /
          (toy4.length : ℚ) - 3/10| < 1 / (toy4.length : ℚ))) :=
  ⟨List.Perm.refl _, splitter_partition idShuffle (some 42) 0 toy4 (List.Perm.refl _)⟩

/-- Claim C7 counterexample: on the spec's toy dataset of 10 non-fraud and 2
fraud rows the Balancer raises — the minority class has 2 members where the
default 5-neighbor interpolation needs 6 — instead of returning the claimed
20-row balanced dataset. -/
theorem balancer_toy_scenario_cex :
    smoteFitResample genHead (some 42) 0 toy12 = .error .tooFewMinority := by
  with_unfolding_all rfl

/-- Claim C7 (amended): the spec's scenario as stated fails (see the
counterexample), but holds once the toy minority is given the
`k_neighbors + 1 = 6` members the interpolation needs: whenever the Balancer
succeeds on 10 distinct non-fraud and 6 distinct fraud rows it returns 10
fraud and 10 non-fraud rows (20 total), and the Splitter at fraction 0.3 on
the balanced result returns 6 test and 14 train rows. -/
theorem toy_scenario_amended (gen : Nat → Dataset → Nat → Row)
    (shuffle : Nat → Nat → List Nat) (e₁ e₂ : Nat) (B : Dataset)
    (hB : smoteFitResample gen (some 42) e₁ toy16 = .ok B)
    (hp : (shuffle 42 20).Perm (List.range 20)) :
    countLabel false B = 10 ∧ countLabel true B = 10 ∧ B.length = 20 ∧
    (trainTestSplit shuffle (3/10) (some 42) e₂ B).2.length = 6 ∧
    (trainTestSplit shuffle (3/10) (some 42) e₂ B).1.length = 14 := by
  obtain ⟨h0, h1, h2⟩ := smoteFitResample_ok gen (some 42) e₁ toy16 B hB
  have hcf : countLabel false toy16 = 10 := by decide
  have hct : countLabel true toy16 = 6 := by decide
  have hlt : toy16.length = 16 := by decide
  rw [hcf, hct] at h0 h1
  rw [hcf, hct, hlt] at h2
  have hB0 : countLabel false B = 10 := by omega
  have hB1 : countLabel true B = 10 := by omega
  have hB2 : B.length = 20 := by omega
  have hp2 : (shuffle ((some 42 : Option Nat).getD e₂) B.length).Perm
      (List.range B.length) := by
    rw [show ((some 42 : Option Nat).getD e₂) = 42 from rfl, hB2]
    exact hp
  have hceil : (⌈(3/10 : ℚ) * ((20 : ℕ) : ℚ)⌉).toNat = 6 := by
    with_unfolding_all rfl
  have hle : (⌈(3/10 : ℚ) * (B.length : ℚ)⌉).toNat ≤ B.length := by
    rw [hB2, hceil]
    omega
  obtain ⟨hl2, hl1⟩ := trainTestSplit_lengths shuffle (3/10) (some 42) e₂ B hp2 hle
  rw [hB2, hceil] at hl2 hl1
  exact ⟨hB0, hB1, hB2, hl2, by omega⟩

/-- Witness for the amended C7 under the degenerate generator and identity
shuffle. -/
theorem toy_scenario_amended_witness :
    smoteFitResample genHead (some 42) 0 toy16 = .ok toy16bal ∧
    (idShuffle 42 20).Perm (List.range 20) ∧
    (countLabel false toy16bal = 10 ∧ countLabel true toy16bal = 10 ∧
     toy16bal.length = 20 ∧
     (trainTestSplit idShuffle (3/10) (some 42) 0 toy16bal).2.length = 6 ∧
     (trainTestSplit idShuffle (3/10) (some 42) 0 toy16bal).1.length = 14) :=
  ⟨by with_unfolding_all rfl, List.Perm.refl _,
   toy_scenario_amended genHead idShuffle 0 0 toy16bal
     (by with_unfolding_all rfl) (List.Perm.refl _)⟩

theorem countP_split {α : Type} (l : List α) (q s : α → Bool) :
    l.countP q = l.countP (fun a => q a && s a) + l.countP (fun a => q a && !s a) := by
  induction l with
  | nil => simp
  | cons a as ih =>
    simp only [List.countP_cons, ih]
    by_cases hq : q a <;> by_cases hs : s a <;> simp [hq, hs] <;> omega

theorem pairCount_split (t p : List Bool) (q s : Bool → Bool → Bool) :
    pairCount t p q = pairCount t p (fun a b => q a b && s a b) +
      pairCount t p (fun a b => q a b && !(s a b)) := by
  unfold pairCount
  exact countP_split _ _ _

theorem pairCount_congr (t p : List Bool) (f g : Bool → Bool → Bool)
    (h : ∀ a b, f a b = g a b) : pairCount t p f = pairCount t p g := by
  unfold pairCount
  congr 1
  funext x
  exact h x.1 x.2

/-- The positions predicted as class `c` split into true and false positives
of `c`. -/
theorem predicted_col_split (c : Bool) (t p : List Bool) :
    pairCount t p (fun _ b => b == c)
      = confusion c c t p + confusion (!c) c t p := by
  rw [pairCount_split t p (fun _ b => b == c) (fun a _ => a == c)]
  unfold confusion
  congr 1
  · exact pairCount_congr t p _ _
      (by intro a b; cases a <;> cases b <;> cases c <;> rfl)
  · exact pairCount_congr t p _ _
      (by intro a b; cases a <;> cases b <;> cases c <;> rfl)

/-- The positions whose true label is `c` split into true positives and false
negatives of `c`. -/
theorem true_col_split (c : Bool) (t p : List Bool) :
    pairCount t p (fun a _ => a == c)
      = confusion c c t p + confusion c (!c) t p := by
  have e1 : pairCount t p (fun a b => (a == c) && (b == c)) = confusion c c t p :=
    pairCount_congr t p _ _
      (by intro a b; cases a <;> cases b <;> cases c <;> rfl)
  have e2 : pairCount t p (fun a b => (a == c) && !(b == c))
      = confusion c (!c) t p :=
    pairCount_congr t p _ _
      (by intro a b; cases a <;> cases b <;> cases c <;> rfl)
  rw [pairCount_split t p (fun a _ => a == c) (fun _ b => b == c), e1, e2]

/-- The agreeing positions are exactly the true positives plus true
negatives. -/
theorem agree_split (t p : List Bool) :
    pairCount t p (fun a b => a == b)
      = confusion true true t p + confusion false false t p := by
  rw [pairCount_split t p (fun a b => a == b) (fun a _ => a)]
  unfold confusion
  congr 1
  · exact pairCount_congr t p _ _ (by intro a b; cases a <;> cases b <;> rfl)
  · exact pairCount_congr t p _ _ (by intro a b; cases a <;> cases b <;> rfl)

theorem prfDiv_zero_num (b : ℚ) : prfDiv 0 b = 0 := by
  unfold prfDiv
  split <;> simp

/-- The harmonic mean `2PR / (P + R)` of the guarded precision and recall
equals the direct confusion-matrix form `2 TP / (2 TP + FP + FN)`. -/
theorem prfDiv_harmonic (tp fp fn : ℚ) (h0 : 0 ≤ tp) (h1 : 0 ≤ fp)
    (h2 : 0 ≤ fn) :
    prfDiv (2 * prfDiv tp (tp + fp) * prfDiv tp (tp + fn))
        (prfDiv tp (tp + fp) + prfDiv tp (tp + fn))
      = prfDiv (2 * tp) (2 * tp + fp + fn) := by
  by_cases htp : tp = 0
  · subst htp
    rw [prfDiv_zero_num, prfDiv_zero_num]
    simp [prfDiv]
  · have htp' : 0 < tp := lt_of_le_of_ne h0 (Ne.symm htp)
    have hd1 : (0 : ℚ) < tp + fp := by linarith
    have hd2 : (0 : ℚ) < tp + fn := by linarith
    have hd3 : (0 : ℚ) < 2 * tp + fp + fn := by linarith
    have hP : prfDiv tp (tp + fp) = tp / (tp + fp) := by
      unfold prfDiv
      rw [if_neg (ne_of_gt hd1)]
    have hR : prfDiv tp (tp + fn) = tp / (tp + fn) := by
      unfold prfDiv
      rw [if_neg (ne_of_gt hd2)]
    have hPpos : 0 < tp / (tp + fp) := div_pos htp' hd1
    have hRpos : 0 < tp / (tp + fn) := div_pos htp' hd2
    rw [hP, hR]
    unfold prfDiv
    rw [if_neg (ne_of_gt (by linarith)), if_neg (ne_of_gt hd3)]
    field_simp
    ring

/-- sklearn's per-class F1 (harmonic mean of the guarded precision and
recall) coincides with the spec's confusion-matrix form. -/
theorem f1For_eq_spec (c : Bool) (t p : List Bool) :
    f1For c t p = specF1For c t p := by
  unfold f1For precisionFor recallFor specF1For
  rw [show pairCount t p (fun a b => a == c && b == c) = confusion c c t p
      from rfl,
    predicted_col_split c t p, true_col_split c t p]
  push_cast
  exact prfDiv_harmonic (confusion c c t p) (confusion (!c) c t p)
    (confusion c (!c) t p) (Nat.cast_nonneg _) (Nat.cast_nonneg _)
    (Nat.cast_nonneg _)

/-- Claim C10: the Evaluator's holdout score row for each trained model is
computed from that model's predictions on the test features, and its four
entries coincide with the spec's description: accuracy `(TP + TN) / n`, F1
weighted by the class frequencies of the true labels, and precision and
recall of the positive (fraud) class only, unweighted, with a zero
denominator yielding 0 rather than a crash. -/
theorem evaluator_metrics_row (predict : List (ℚ × ℚ × List ℚ) → List Bool)
    (Xtest : List (ℚ × ℚ × List ℚ)) (ytest : List Bool) :
    evaluateModel predict Xtest ytest =
      (specAccuracy ytest (predict Xtest),
       specWeightedF1 ytest (predict Xtest),
       specPrecision ytest (predict Xtest),
       specRecall ytest (predict Xtest)) := by
  unfold evaluateModel metricsRow
  simp only [Prod.mk.injEq]
  refine ⟨?_, ?_, ?_, ?_⟩
  · unfold accuracy_score specAccuracy
    rw [agree_split]
  · unfold f1_score_weighted specWeightedF1
    rw [f1For_eq_spec, f1For_eq_spec]
  · unfold precision_score precisionFor specPrecision
    rw [show pairCount ytest (predict Xtest)
          (fun a b => a == true && b == true)
        = confusion true true ytest (predict Xtest) from rfl,
      predicted_col_split true ytest (predict Xtest)]
    norm_num
  · unfold recall_score recallFor specRecall
    rw [show pairCount ytest (predict Xtest)
          (fun a b => a == true && b == true)
        = confusion true true ytest (predict Xtest) from rfl,
      true_col_split true ytest (predict Xtest)]
    norm_num
